import Mathlib

/-!
Verification of the WebSocket MCP transport (`mcp-ws-example.ts`).

A shallow embedding of `WebSocketMCPTransport`: the retrying connect loop
(`start`), the retrying send loop (`send`), teardown (`close`), the
unsolicited-disconnect handler (`socket.onclose`), the inbound message
handler (`socket.onmessage`), and the message codec
(`JSON.stringify` / `JSON.parse` plus the schema validator).

Effectful code is modelled as functions from an explicit environment
(the outcome of each connect attempt, each socket write, the shape of
each inbound frame) to a trace of observable events (connect attempts,
socket writes, backoff delays, and the three consumer callbacks) plus a
result (`Except` for the promise resolving or rejecting).
-/

namespace MCPWS

/-- From the source: `const MAX_RETRIES = 3`. -/
def MAX_RETRIES : Nat := 3

/-- From the source: `const RETRY_DELAY_MS = 1000`. -/
def RETRY_DELAY_MS : Nat := 1000

/-- The cause recorded by the catch-all in the `socket.onmessage` handler:
an unsupported `event.data` shape, a `JSON.parse` throw, a schema-validation
throw, or a throw from the consumer's own `onmessage` callback. -/
inductive ParseCause where
  | unsupportedData
  | jsonError
  | schemaError
  | callbackError
  deriving DecidableEq, Repr

/-- The transport-level errors of the source, each `Error` the class
constructs (connection error, not connected, socket not in OPEN state,
failed send, failed parse); `cause : Nat` stands for the opaque underlying
platform error attached as `error.cause`. -/
inductive TransportError where
  | connectionError (cause : Nat)
  | notConnected
  | socketNotOpen
  | sendFailed (cause : Nat)
  | parseFailed (cause : ParseCause)
  deriving DecidableEq, Repr

/-- JSON values as handled by `JSON.stringify` / `JSON.parse`; strings are
kept as character lists. Numbers are modelled as integers (the transport
treats messages opaquely, so only the codec shape matters). -/
inductive Json where
  | null
  | bool (b : Bool)
  | num (n : Int)
  | str (s : List Char)
  | arr (elems : List Json)
  | obj (members : List (List Char × Json))

/-- Observable events of one run: a connect attempt starting (a
`new WebSocket(...)`), a write handed to `socket.send`, an awaited backoff
delay, and the three consumer callbacks firing. -/
inductive Ev where
  | connectAttempt (i : Nat)
  | sockWrite (i : Nat)
  | delayed (ms : Nat)
  | onError (e : TransportError)
  | onClose
  | onMessage (m : Json)

/-- Environment for one connect attempt: the socket either signals `open`
or signals a connection-level error with an underlying cause. -/
inductive ConnectOutcome where
  | ok
  | fail (cause : Nat)
  deriving DecidableEq, Repr

/-- Environment for one `socket.send` write: the completion callback
reports success or an underlying error. -/
inductive WriteOutcome where
  | ok
  | fail (cause : Nat)
  deriving DecidableEq, Repr

/-- One `_connect()` call at attempt index `i`: emits the attempt, and on
a socket error the `onerror` consumer callback fires (inside the socket's
`onerror` handler) before the promise rejects with the wrapped error. -/
def connectOnce (env : Nat → ConnectOutcome) (i : Nat) : List Ev × Except TransportError Unit :=
  match env i with
  | .ok => ([Ev.connectAttempt i], Except.ok ())
  | .fail c =>
    ([Ev.connectAttempt i, Ev.onError (TransportError.connectionError c)],
      Except.error (TransportError.connectionError c))

/-- The `while (attempts < MAX_RETRIES)` loop of `start()`, with
`remaining = MAX_RETRIES - attempts` made explicit so the recursion is
structural. On failure the attempt counter is incremented; if it reaches
`MAX_RETRIES` the error is rethrown, otherwise the loop awaits
`delay(RETRY_DELAY_MS)` and retries. -/
def startLoop (env : Nat → ConnectOutcome) (attempts : Nat) :
    Nat → List Ev × Except TransportError Unit
  | 0 => ([], Except.ok ())
  | remaining + 1 =>
    let att := connectOnce env attempts
    match att.2 with
    | .ok _ => (att.1, Except.ok ())
    | .error e =>
      if attempts + 1 = MAX_RETRIES then
        (att.1, Except.error e)
      else
        let rest := startLoop env (attempts + 1) remaining
        (att.1 ++ Ev.delayed RETRY_DELAY_MS :: rest.1, rest.2)

/-- `start()`: a no-op when already connected, otherwise the retry loop
starting at attempt 0 with all `MAX_RETRIES` attempts remaining. -/
def startTS (connected : Bool) (env : Nat → ConnectOutcome) :
    List Ev × Except TransportError Unit :=
  if connected then ([], Except.ok ()) else startLoop env 0 MAX_RETRIES

/-- One iteration of the `send()` try-block at attempt `i`: first the
`readyState !== WebSocket.OPEN` re-check (throwing `SocketNotOpen` with no
write performed), then the underlying `socket.send` write whose completion
callback resolves or rejects with the wrapped send error. -/
def sendAttempt (ready : Nat → Bool) (write : Nat → WriteOutcome) (i : Nat) :
    List Ev × Except TransportError Unit :=
  if ready i = false then ([], Except.error TransportError.socketNotOpen)
  else
    match write i with
    | .ok => ([Ev.sockWrite i], Except.ok ())
    | .fail c => ([Ev.sockWrite i], Except.error (TransportError.sendFailed c))

/-- The `while (attempts < MAX_RETRIES)` loop of `send()`: a successful
attempt returns immediately; on the final failed attempt the consumer
`onerror` callback fires once with that attempt's error and the error is
rethrown; otherwise the loop awaits the backoff delay and retries. -/
def sendLoop (ready : Nat → Bool) (write : Nat → WriteOutcome) (attempts : Nat) :
    Nat → List Ev × Except TransportError Unit
  | 0 => ([], Except.ok ())
  | remaining + 1 =>
    let att := sendAttempt ready write attempts
    match att.2 with
    | .ok _ => (att.1, Except.ok ())
    | .error e =>
      if attempts + 1 = MAX_RETRIES then
        (att.1 ++ [Ev.onError e], Except.error e)
      else
        let rest := sendLoop ready write (attempts + 1) remaining
        (att.1 ++ Ev.delayed RETRY_DELAY_MS :: rest.1, rest.2)

/-- `send(message)`: the guard `if (!this.socket || !this.connected)`
throws `NotConnected` before any attempt; otherwise the retry loop runs. -/
def sendTS (hasSocket connected : Bool) (ready : Nat → Bool) (write : Nat → WriteOutcome) :
    List Ev × Except TransportError Unit :=
  if hasSocket = false || connected = false then ([], Except.error TransportError.notConnected)
  else sendLoop ready write 0 MAX_RETRIES

/-- The mutable fields of `WebSocketMCPTransport` relevant to lifecycle
claims: the stored socket handle (`some isOpen` records whether its
`readyState` is OPEN), the `connected` flag, and the abort controller's
signalled state. -/
structure TransportState where
  socket : Option Bool
  connected : Bool
  aborted : Bool
  deriving DecidableEq, Repr

/-- `close()`: clears `connected`, signals the abort controller, then — if
a socket handle is stored — calls `socket.close()` when the socket is OPEN
and discards the handle, and finally fires the consumer `onclose` callback.
`closeErr` is the environment's choice of whether the underlying
`socket.close()` call throws; the source has no try/catch here, so such an
exception propagates before the handle is cleared and before the `onclose`
callback fires. -/
def close (st : TransportState) (closeErr : Option Nat) :
    TransportState × List Ev × Except TransportError Unit :=
  let st1 : TransportState := { st with connected := false, aborted := true }
  match st1.socket with
  | some isOpen =>
    if isOpen then
      match closeErr with
      | some c => (st1, [], Except.error (TransportError.connectionError c))
      | none => ({ st1 with socket := none }, [Ev.onClose], Except.ok ())
    else ({ st1 with socket := none }, [Ev.onClose], Except.ok ())
  | none => (st1, [Ev.onClose], Except.ok ())

/-- The `socket.onclose` handler installed by `_connect` (an unsolicited
disconnect): it clears the `connected` flag and fires the consumer
`onclose` callback; the stored socket handle is left untouched. -/
def handleSocketClose (st : TransportState) : TransportState × List Ev :=
  ({ st with connected := false }, [Ev.onClose])

/-- Number of connect attempts in a trace. -/
def attemptCount : List Ev → Nat
  | [] => 0
  | Ev.connectAttempt _ :: t => attemptCount t + 1
  | _ :: t => attemptCount t

/-- Number of socket writes in a trace. -/
def writeCount : List Ev → Nat
  | [] => 0
  | Ev.sockWrite _ :: t => writeCount t + 1
  | _ :: t => writeCount t

/-- Number of `onerror` consumer-callback invocations in a trace. -/
def onErrorCount : List Ev → Nat
  | [] => 0
  | Ev.onError _ :: t => onErrorCount t + 1
  | _ :: t => onErrorCount t

/-- Number of `onclose` consumer-callback invocations in a trace. -/
def onCloseCount : List Ev → Nat
  | [] => 0
  | Ev.onClose :: t => onCloseCount t + 1
  | _ :: t => onCloseCount t

/-- Number of `onmessage` consumer-callback invocations in a trace. -/
def onMessageCount : List Ev → Nat
  | [] => 0
  | Ev.onMessage _ :: t => onMessageCount t + 1
  | _ :: t => onMessageCount t

/-- Scanner for the backoff guarantee: accumulate delay since the previous
connect attempt; every attempt after the first must be preceded by at
least `RETRY_DELAY_MS` of accumulated delay. -/
def gapScan : Nat → Bool → List Ev → Bool
  | _, _, [] => true
  | acc, seen, Ev.connectAttempt _ :: t =>
    ((!seen) || decide (RETRY_DELAY_MS ≤ acc)) && gapScan 0 true t
  | acc, seen, Ev.delayed ms :: t => gapScan (acc + ms) seen t
  | acc, seen, _ :: t => gapScan acc seen t

/-- At least the backoff interval elapses between consecutive connect
attempts of a trace. -/
def delaysBetweenAttemptsOk (t : List Ev) : Bool := gapScan 0 false t

/-- Environment in which the first three connect attempts fail and a
fourth attempt, were it made, would succeed. -/
def envThreeFailThenOk : Nat → ConnectOutcome :=
  fun i => if i < 3 then ConnectOutcome.fail 0 else ConnectOutcome.ok

/-- A transport state holding an OPEN socket while connected. -/
def stOpenConnected : TransportState :=
  { socket := some true, connected := true, aborted := false }

/-! ## Message codec

`send` serializes with `JSON.stringify(message)`; the receive path runs
`JSONRPCMessageSchema.parse(JSON.parse(dataString))`. The platform JSON
codec is modelled by an executable serializer and recursive-descent
parser over the `Json` value type (numbers as integers, no unicode
escapes — the transport treats messages opaquely). The schema module
`./json-rpc-message` is not part of this repository's source. -/

/-- Decimal digits of `n`, most significant first. -/
def digitsOf (n : Nat) : List Char :=
  if n < 10 then [Nat.digitChar n]
  else digitsOf (n / 10) ++ [Nat.digitChar (n % 10)]
termination_by n
decreasing_by exact Nat.div_lt_self (by omega) (by omega)

/-- Serialization of an integer JSON number, as `JSON.stringify` prints
integral numbers: an optional leading minus and no leading zeros. -/
def encodeInt (n : Int) : List Char :=
  if n < 0 then '-' :: digitsOf n.natAbs else digitsOf n.toNat

/-- String escaping as produced by `JSON.stringify`: quote, backslash and
the common control characters get two-character escapes. -/
def escapeChar (c : Char) : List Char :=
  if c = '"' then ['\\', '"']
  else if c = '\\' then ['\\', '\\']
  else if c = '\n' then ['\\', 'n']
  else if c = '\t' then ['\\', 't']
  else if c = '\r' then ['\\', 'r']
  else [c]

def escapeChars : List Char → List Char
  | [] => []
  | c :: cs => escapeChar c ++ escapeChars cs

/-- A JSON string literal: quote, escaped content, quote. -/
def encodeStringJs (s : List Char) : List Char := '"' :: escapeChars s ++ ['"']

/-- The keyword `null` as characters. -/
def litNull : List Char := ['n', 'u', 'l', 'l']

/-- The keyword `true` as characters. -/
def litTrue : List Char := ['t', 'r', 'u', 'e']

/-- The keyword `false` as characters. -/
def litFalse : List Char := ['f', 'a', 'l', 's', 'e']

mutual

/-- `JSON.stringify` on a `Json` value (no whitespace, as the source
sends compact frames). -/
def encodeJson : Json → List Char
  | .bool b => if b then litTrue else litFalse
  | .null => litNull
  | .num n => encodeInt n
  | .str s => encodeStringJs s
  | .arr [] => ['[', ']']
  | .arr (x :: xs) => '[' :: ((encodeJson x ++ encodeElemsTail xs) ++ [']'])
  | .obj [] => ['{', '}']
  | .obj ((k, v) :: ms) =>
    '{' :: ((encodeStringJs k ++ ':' :: encodeJson v ++ encodeMembersTail ms) ++ ['}'])

/-- Comma-prefixed encodings of the remaining array elements. -/
def encodeElemsTail : List Json → List Char
  | x :: xs => ',' :: (encodeJson x ++ encodeElemsTail xs)
  | [] => []

/-- Comma-prefixed encodings of the remaining object members. -/
def encodeMembersTail : List (List Char × Json) → List Char
  | (key, val) :: ms => ',' :: (encodeStringJs key ++ ':' :: encodeJson val ++ encodeMembersTail ms)
  | [] => []

end

mutual

/-- Structural size of a `Json` value, a lower bound for the parser fuel. -/
def sizeJ : Json → Nat
  | .arr xs => 1 + sizeL xs
  | .obj ms => 1 + sizeM ms
  | _ => 1

def sizeL : List Json → Nat
  | [] => 0
  | x :: xs => 1 + sizeJ x + sizeL xs

def sizeM : List (List Char × Json) → Nat
  | (_, val) :: ms => 1 + sizeJ val + sizeM ms
  | [] => 0

end

/-- The two-character escapes accepted inside a JSON string literal. -/
def unescapeChar (c : Char) : Option Char :=
  if c = '"' then some '"'
  else if c = '\\' then some '\\'
  else if c = '/' then some '/'
  else if c = 'n' then some '\n'
  else if c = 't' then some '\t'
  else if c = 'r' then some '\r'
  else if c = 'b' then some (Char.ofNat 8)
  else if c = 'f' then some (Char.ofNat 12)
  else none

/-- Parse the remainder of a string literal after the opening quote,
returning the content and the input after the closing quote. -/
def parseStrChars : List Char → Option (List Char × List Char)
  | [] => none
  | c :: r =>
    if c = '"' then some ([], r)
    else if c = '\\' then
      match r with
      | [] => none
      | e :: r2 =>
        match unescapeChar e with
        | none => none
        | some u =>
          match parseStrChars r2 with
          | none => none
          | some (s, r3) => some (u :: s, r3)
    else
      match parseStrChars r with
      | none => none
      | some (s, r3) => some (c :: s, r3)
termination_by structural s => s

/-- Split off the longest leading run of decimal digits. -/
def takeDigits : List Char → List Char × List Char
  | [] => ([], [])
  | c :: cs =>
    if c.isDigit then
      let p := takeDigits cs
      (c :: p.1, p.2)
    else ([], c :: cs)

/-- Numeric value of a digit run, most significant first. -/
def digitsVal : List Char → Nat
  | [] => 0
  | c :: cs => (c.toNat - 48) * 10 ^ cs.length + digitsVal cs

mutual

/-- Recursive-descent JSON value parser (the model of `JSON.parse`),
fuelled to make the mutual recursion structural; `decodeJson` supplies
ample fuel. Returns the parsed value and the unconsumed input. -/
def parseValue : Nat → List Char → Option (Json × List Char)
  | 0, _ => none
  | _ + 1, [] => none
  | fuel + 1, c :: r =>
    if c = 'n' then
      match r with
      | 'u' :: 'l' :: 'l' :: r2 => some (Json.null, r2)
      | _ => none
    else if c = 't' then
      match r with
      | 'r' :: 'u' :: 'e' :: r2 => some (Json.bool true, r2)
      | _ => none
    else if c = 'f' then
      match r with
      | 'a' :: 'l' :: 's' :: 'e' :: r2 => some (Json.bool false, r2)
      | _ => none
    else if c = '"' then
      match parseStrChars r with
      | some (s, r2) => some (Json.str s, r2)
      | none => none
    else if c = '[' then
      match r with
      | ']' :: r2 => some (Json.arr [], r2)
      | _ =>
        match parseElems fuel r with
        | some (vs, r2) => some (Json.arr vs, r2)
        | none => none
    else if c = '{' then
      match r with
      | '}' :: r2 => some (Json.obj [], r2)
      | _ =>
        match parseMembers fuel r with
        | some (ms, r2) => some (Json.obj ms, r2)
        | none => none
    else if c = '-' then
      match takeDigits r with
      | ([], _) => none
      | (ds, r2) => some (Json.num (-(Int.ofNat (digitsVal ds))), r2)
    else if c.isDigit then
      let p := takeDigits (c :: r)
      some (Json.num (Int.ofNat (digitsVal p.1)), p.2)
    else none

/-- One or more comma-separated elements followed by the closing bracket. -/
def parseElems : Nat → List Char → Option (List Json × List Char)
  | 0, _ => none
  | fuel + 1, s =>
    match parseValue fuel s with
    | none => none
    | some (v, r2) =>
      match r2 with
      | ',' :: r3 =>
        match parseElems fuel r3 with
        | some (vs, r4) => some (v :: vs, r4)
        | none => none
      | ']' :: r3 => some ([v], r3)
      | _ => none

/-- One or more comma-separated `"key":value` members followed by the
closing brace. -/
def parseMembers : Nat → List Char → Option (List (List Char × Json) × List Char)
  | 0, _ => none
  | fuel + 1, s =>
    match s with
    | '"' :: r =>
      match parseStrChars r with
      | none => none
      | some (k, r2) =>
        match r2 with
        | ':' :: r3 =>
          match parseValue fuel r3 with
          | none => none
          | some (v, r4) =>
            match r4 with
            | ',' :: r5 =>
              match parseMembers fuel r5 with
              | some (ms, r6) => some ((k, v) :: ms, r6)
              | none => none
            | '}' :: r5 => some ([(k, v)], r5)
            | _ => none
        | _ => none
    | _ => none

end

/-- `JSON.parse` of a whole frame: the parse must consume the entire
input, otherwise it throws (here: `none`). -/
def decodeJson (s : List Char) : Option Json :=
  match parseValue (s.length + 1) s with
  | some (v, []) => some v
  | _ => none

/-- Modelled from the spec: `JSONRPCMessageSchema` (imported from
`./json-rpc-message`, which is not part of this repository's source) is
consumed as an opaque validating parser — it accepts or rejects a decoded
JSON value and returns an accepted value unchanged. `valid` is the
schema's acceptance predicate. -/
def schemaParse (valid : Json → Bool) (j : Json) : Option Json :=
  if valid j then some j else none

/-- The send path's `JSON.stringify(message)`. -/
def encodeFrame (m : Json) : List Char := encodeJson m

/-- The receive path's `JSONRPCMessageSchema.parse(JSON.parse(dataString))`. -/
def decodeFrame (valid : Json → Bool) (s : List Char) : Option Json :=
  match decodeJson s with
  | none => none
  | some j => schemaParse valid j

/-- The constructor's `url.replace(/^http/i, 'ws')`: a case-insensitive
`http` prefix is replaced by `ws` (so `https` becomes `wss`), leaving
host and port untouched; any other URL is unchanged. -/
def normalizeUrlChars : List Char → List Char
  | a :: b :: c :: d :: rest =>
    if a.toLower = 'h' ∧ b.toLower = 't' ∧ c.toLower = 't' ∧ d.toLower = 'p' then
      'w' :: 's' :: rest
    else a :: b :: c :: d :: rest
  | s => s

def normalizeUrl (s : String) : String := String.mk (normalizeUrlChars s.data)

/-! ## Receive path -/

/-- The shapes of `event.data` in the `socket.onmessage` handler:
`string`, `Buffer`, `ArrayBuffer` (byte payloads modelled by their
UTF-8-decoded characters), or anything else (`Buffer[]`). -/
inductive WsData where
  | str (s : List Char)
  | buffer (bytes : List Char)
  | arrayBuffer (bytes : List Char)
  | bufferList (chunks : List (List Char))

/-- The data-shape dispatch at the top of the handler: strings pass
through, `Buffer` and `ArrayBuffer` are decoded to text, any other shape
throws the unsupported-data error. -/
def toDataString : WsData → Option (List Char)
  | .str s => some s
  | .buffer b => some b
  | .arrayBuffer b => some b
  | .bufferList _ => none

/-- The try-block of the `socket.onmessage` handler: the events fired,
plus the cause of the throw when the block throws. `cbThrows` models
whether the consumer's own `onmessage` callback throws on a message. -/
def onmessageTry (valid : Json → Bool) (cbThrows : Json → Bool) (d : WsData) :
    List Ev × Option ParseCause :=
  match toDataString d with
  | none => ([], some ParseCause.unsupportedData)
  | some s =>
    match decodeJson s with
    | none => ([], some ParseCause.jsonError)
    | some j =>
      match schemaParse valid j with
      | none => ([], some ParseCause.schemaError)
      | some m =>
        if cbThrows m then ([Ev.onMessage m], some ParseCause.callbackError)
        else ([Ev.onMessage m], none)

/-- The full `socket.onmessage` handler: the catch-block wraps any thrown
cause in the failed-to-parse transport error, reports it via the consumer
error callback, and deliberately does not rethrow. -/
def handleWsMessage (valid : Json → Bool) (cbThrows : Json → Bool) (d : WsData) : List Ev :=
  match onmessageTry valid cbThrows d with
  | (t, none) => t
  | (t, some cause) => t ++ [Ev.onError (TransportError.parseFailed cause)]

/-- Inbound socket data events are handled one at a time in arrival
order; no handler outcome stops the processing of later events. -/
def processInbound (valid : Json → Bool) (cbThrows : Json → Bool) : List WsData → List Ev
  | [] => []
  | d :: ds => handleWsMessage valid cbThrows d ++ processInbound valid cbThrows ds

/-- True when the head of the input is not a decimal digit (the separator
condition under which a printed number is parsed back whole). -/
def headNotDigit : List Char → Bool
  | [] => true
  | c :: _ => !c.isDigit

/-! ## Lifecycle and send-path theorems -/

/-- C1: a run of `start()` in which all connect attempts fail performs
exactly 3 connect attempts, rethrows the last attempt's connection error,
and waits the 1000 ms backoff between consecutive attempts and not after
the last one (the full trace is pinned down). -/
theorem start_all_fail_three_attempts_rethrows_last
    (env : Nat → ConnectOutcome) (c0 c1 c2 : Nat)
    (h0 : env 0 = ConnectOutcome.fail c0) (h1 : env 1 = ConnectOutcome.fail c1)
    (h2 : env 2 = ConnectOutcome.fail c2) :
    startTS false env =
      ([Ev.connectAttempt 0, Ev.onError (TransportError.connectionError c0),
        Ev.delayed RETRY_DELAY_MS,
        Ev.connectAttempt 1, Ev.onError (TransportError.connectionError c1),
        Ev.delayed RETRY_DELAY_MS,
        Ev.connectAttempt 2, Ev.onError (TransportError.connectionError c2)],
        Except.error (TransportError.connectionError c2)) ∧
    attemptCount (startTS false env).1 = 3 ∧
    delaysBetweenAttemptsOk (startTS false env).1 = true := by
  have ht : startTS false env =
      ([Ev.connectAttempt 0, Ev.onError (TransportError.connectionError c0),
        Ev.delayed RETRY_DELAY_MS,
        Ev.connectAttempt 1, Ev.onError (TransportError.connectionError c1),
        Ev.delayed RETRY_DELAY_MS,
        Ev.connectAttempt 2, Ev.onError (TransportError.connectionError c2)],
        Except.error (TransportError.connectionError c2)) := by
    simp [startTS, startLoop, connectOnce, h0, h1, h2, MAX_RETRIES]
  refine ⟨ht, ?_, ?_⟩ <;>
    simp [ht, attemptCount, delaysBetweenAttemptsOk, gapScan, RETRY_DELAY_MS]

/-- C1 witness: the all-fail environment with distinct causes per attempt. -/
theorem start_all_fail_three_attempts_rethrows_last_witness :
    startTS false (fun i => ConnectOutcome.fail i) =
      ([Ev.connectAttempt 0, Ev.onError (TransportError.connectionError 0),
        Ev.delayed RETRY_DELAY_MS,
        Ev.connectAttempt 1, Ev.onError (TransportError.connectionError 1),
        Ev.delayed RETRY_DELAY_MS,
        Ev.connectAttempt 2, Ev.onError (TransportError.connectionError 2)],
        Except.error (TransportError.connectionError 2)) ∧
    attemptCount (startTS false (fun i => ConnectOutcome.fail i)).1 = 3 ∧
    delaysBetweenAttemptsOk (startTS false (fun i => ConnectOutcome.fail i)).1 = true :=
  start_all_fail_three_attempts_rethrows_last (fun i => ConnectOutcome.fail i) 0 1 2 rfl rfl rfl

/-- C2 counterexample: with the first 3 connect attempts failing and the
next attempt set up to succeed (the claim's `N = 3` instance), `start()`
does not resolve successfully after 4 attempts: it has already rethrown
the third failure, having performed exactly 3 attempts. -/
theorem start_three_failures_then_success_still_fails :
    ¬ ((startTS false envThreeFailThenOk).2 = Except.ok () ∧
       attemptCount (startTS false envThreeFailThenOk).1 = 4) := by
  intro h
  have hres : (startTS false envThreeFailThenOk).2 =
      Except.error (TransportError.connectionError 0) := rfl
  rw [hres] at h
  exact Except.noConfusion h.1

/-- C2 amended: for every `N ≤ 2` (i.e. `N < MAX_RETRIES`), if the first
`N` connect attempts fail and attempt `N` succeeds, `start()` resolves
successfully after exactly `N + 1` attempts, with at least 1000 ms of
backoff between consecutive attempts. -/
theorem start_n_failures_then_success (env : Nat → ConnectOutcome) (c : Nat → Nat) (N : Nat)
    (hN : N ≤ 2) (hfail : ∀ i, i < N → env i = ConnectOutcome.fail (c i))
    (hok : env N = ConnectOutcome.ok) :
    (startTS false env).2 = Except.ok () ∧
    attemptCount (startTS false env).1 = N + 1 ∧
    delaysBetweenAttemptsOk (startTS false env).1 = true := by
  interval_cases N
  · simp [startTS, startLoop, connectOnce, hok, MAX_RETRIES,
      attemptCount, delaysBetweenAttemptsOk, gapScan]
  · have h0 := hfail 0 (by norm_num)
    simp [startTS, startLoop, connectOnce, h0, hok, MAX_RETRIES, RETRY_DELAY_MS,
      attemptCount, delaysBetweenAttemptsOk, gapScan]
  · have h0 := hfail 0 (by norm_num)
    have h1 := hfail 1 (by norm_num)
    simp [startTS, startLoop, connectOnce, h0, h1, hok, MAX_RETRIES, RETRY_DELAY_MS,
      attemptCount, delaysBetweenAttemptsOk, gapScan]

/-- C2 amended witness: two failures then success resolves after 3 attempts. -/
theorem start_n_failures_then_success_witness :
    (startTS false (fun i => if i < 2 then ConnectOutcome.fail i else ConnectOutcome.ok)).2 =
      Except.ok () ∧
    attemptCount
      (startTS false (fun i => if i < 2 then ConnectOutcome.fail i else ConnectOutcome.ok)).1 =
      3 ∧
    delaysBetweenAttemptsOk
      (startTS false (fun i => if i < 2 then ConnectOutcome.fail i else ConnectOutcome.ok)).1 =
      true :=
  start_n_failures_then_success
    (fun i => if i < 2 then ConnectOutcome.fail i else ConnectOutcome.ok)
    (fun i => i) 2 (by norm_num)
    (fun i hi => by simp [hi]) rfl

/-- C5 counterexample: in the run where all 3 connect attempts fail, the
consumer `onerror` callback fires 3 times (once inside every attempt's
`socket.onerror` handler), not exactly once. -/
theorem start_all_fail_fires_onerror_three_times :
    ¬ onErrorCount (startTS false (fun _ => ConnectOutcome.fail 0)).1 = 1 := by
  intro h
  have h3 : onErrorCount (startTS false (fun _ => ConnectOutcome.fail 0)).1 = 3 := rfl
  rw [h3] at h
  exact absurd h (by norm_num)

/-- C5 amended: during `start()`, the consumer error callback fires once
per failed connect attempt — 3 times when all attempts fail, and `N` times
when the first `N < 3` attempts fail and attempt `N` succeeds. -/
theorem start_onerror_once_per_failed_attempt (env : Nat → ConnectOutcome) (c : Nat → Nat) :
    ((∀ i, i < 3 → env i = ConnectOutcome.fail (c i)) →
      onErrorCount (startTS false env).1 = 3) ∧
    (∀ N, N < 3 → (∀ i, i < N → env i = ConnectOutcome.fail (c i)) →
      env N = ConnectOutcome.ok →
      onErrorCount (startTS false env).1 = N) := by
  constructor
  · intro hfail
    have h0 := hfail 0 (by norm_num)
    have h1 := hfail 1 (by norm_num)
    have h2 := hfail 2 (by norm_num)
    simp [startTS, startLoop, connectOnce, h0, h1, h2, MAX_RETRIES, onErrorCount]
  · intro N hN hfail hok
    interval_cases N
    · simp [startTS, startLoop, connectOnce, hok, MAX_RETRIES, onErrorCount]
    · have h0 := hfail 0 (by norm_num)
      simp [startTS, startLoop, connectOnce, h0, hok, MAX_RETRIES, onErrorCount]
    · have h0 := hfail 0 (by norm_num)
      have h1 := hfail 1 (by norm_num)
      simp [startTS, startLoop, connectOnce, h0, h1, hok, MAX_RETRIES, onErrorCount]

/-- C5 amended witness: 3 `onerror` firings for the all-fail run, 2 for a
fail-fail-success run. -/
theorem start_onerror_once_per_failed_attempt_witness :
    onErrorCount (startTS false (fun _ => ConnectOutcome.fail 0)).1 = 3 ∧
    onErrorCount
      (startTS false (fun i => if i < 2 then ConnectOutcome.fail i else ConnectOutcome.ok)).1 =
      2 :=
  ⟨(start_onerror_once_per_failed_attempt (fun _ => ConnectOutcome.fail 0) (fun _ => 0)).1
      (fun i _ => rfl),
   (start_onerror_once_per_failed_attempt
      (fun i => if i < 2 then ConnectOutcome.fail i else ConnectOutcome.ok) (fun i => i)).2
      2 (by norm_num) (fun i hi => by simp [hi]) rfl⟩

/-- C3: on a connected transport with a stored socket, (a) if the first
`i < 3` write attempts fail and attempt `i`'s write succeeds, `send()`
resolves with exactly `i + 1` writes and no error-callback firing; (b) if
all 3 attempts fail, the consumer error callback fires exactly once, with
the final attempt's error, which is then rethrown (full trace pinned
down). -/
theorem send_retry_behavior (ready : Nat → Bool) (write : Nat → WriteOutcome) :
    (∀ (c : Nat → Nat) i, i < 3 →
      (∀ j, j < i → ready j = true ∧ write j = WriteOutcome.fail (c j)) →
      ready i = true → write i = WriteOutcome.ok →
      (sendTS true true ready write).2 = Except.ok () ∧
      writeCount (sendTS true true ready write).1 = i + 1 ∧
      onErrorCount (sendTS true true ready write).1 = 0) ∧
    (∀ c0 c1 c2, ready 0 = true → ready 1 = true → ready 2 = true →
      write 0 = WriteOutcome.fail c0 → write 1 = WriteOutcome.fail c1 →
      write 2 = WriteOutcome.fail c2 →
      sendTS true true ready write =
        ([Ev.sockWrite 0, Ev.delayed RETRY_DELAY_MS,
          Ev.sockWrite 1, Ev.delayed RETRY_DELAY_MS,
          Ev.sockWrite 2, Ev.onError (TransportError.sendFailed c2)],
         Except.error (TransportError.sendFailed c2))) := by
  constructor
  · intro c i hi hprev hready hok
    interval_cases i
    · simp [sendTS, sendLoop, sendAttempt, hready, hok, MAX_RETRIES,
        writeCount, onErrorCount]
    · obtain ⟨hr0, hw0⟩ := hprev 0 (by norm_num)
      simp [sendTS, sendLoop, sendAttempt, hr0, hw0, hready, hok, MAX_RETRIES,
        RETRY_DELAY_MS, writeCount, onErrorCount]
    · obtain ⟨hr0, hw0⟩ := hprev 0 (by norm_num)
      obtain ⟨hr1, hw1⟩ := hprev 1 (by norm_num)
      simp [sendTS, sendLoop, sendAttempt, hr0, hw0, hr1, hw1, hready, hok, MAX_RETRIES,
        RETRY_DELAY_MS, writeCount, onErrorCount]
  · intro c0 c1 c2 hr0 hr1 hr2 hw0 hw1 hw2
    simp [sendTS, sendLoop, sendAttempt, hr0, hr1, hr2, hw0, hw1, hw2, MAX_RETRIES]

/-- C3 witness: fail-fail-success resolves with 3 writes; fail-fail-fail
fires `onerror` once with the last error and rejects. -/
theorem send_retry_behavior_witness :
    ((sendTS true true (fun _ => true)
        (fun j => if j < 2 then WriteOutcome.fail j else WriteOutcome.ok)).2 = Except.ok () ∧
      writeCount (sendTS true true (fun _ => true)
        (fun j => if j < 2 then WriteOutcome.fail j else WriteOutcome.ok)).1 = 3 ∧
      onErrorCount (sendTS true true (fun _ => true)
        (fun j => if j < 2 then WriteOutcome.fail j else WriteOutcome.ok)).1 = 0) ∧
    sendTS true true (fun _ => true) (fun j => WriteOutcome.fail j) =
      ([Ev.sockWrite 0, Ev.delayed RETRY_DELAY_MS,
        Ev.sockWrite 1, Ev.delayed RETRY_DELAY_MS,
        Ev.sockWrite 2, Ev.onError (TransportError.sendFailed 2)],
       Except.error (TransportError.sendFailed 2)) :=
  ⟨(send_retry_behavior (fun _ => true)
      (fun j => if j < 2 then WriteOutcome.fail j else WriteOutcome.ok)).1
      (fun j => j) 2 (by norm_num)
      (fun j hj => ⟨rfl, by simp [hj]⟩) rfl rfl,
   (send_retry_behavior (fun _ => true) (fun j => WriteOutcome.fail j)).2
      0 1 2 rfl rfl rfl rfl rfl rfl⟩

/-- C4: `send()` while the transport has no socket handle or is not
connected rejects immediately with `NotConnected`: no write, no attempt,
no backoff, no callback — the trace is empty. -/
theorem send_without_connection_fails_immediately
    (hasSocket connected : Bool) (ready : Nat → Bool) (write : Nat → WriteOutcome)
    (h : hasSocket = false ∨ connected = false) :
    sendTS hasSocket connected ready write = ([], Except.error TransportError.notConnected) ∧
    writeCount (sendTS hasSocket connected ready write).1 = 0 := by
  rcases h with h | h <;> simp [sendTS, h, writeCount]

/-- C4 witness: a never-started transport (no socket, not connected). -/
theorem send_without_connection_fails_immediately_witness :
    sendTS false false (fun _ => true) (fun _ => WriteOutcome.ok) =
      ([], Except.error TransportError.notConnected) ∧
    writeCount (sendTS false false (fun _ => true) (fun _ => WriteOutcome.ok)).1 = 0 :=
  send_without_connection_fails_immediately false false
    (fun _ => true) (fun _ => WriteOutcome.ok) (Or.inl rfl)

/-- C6 counterexample: with an OPEN socket stored and the underlying
`socket.close()` call throwing, `close()` rejects and the consumer
`onclose` callback never fires for that call — the exception is not
swallowed. -/
theorem close_with_throwing_teardown_fails :
    ¬ ((close stOpenConnected (some 0)).2.2 = Except.ok () ∧
       onCloseCount (close stOpenConnected (some 0)).2.1 = 1) := by
  intro h
  have hres : (close stOpenConnected (some 0)).2.2 =
      Except.error (TransportError.connectionError 0) := rfl
  rw [hres] at h
  exact Except.noConfusion h.1

/-- C6 amended: whenever the underlying teardown does not throw, `close()`
resolves and fires the consumer `onclose` callback exactly once per call,
from every prior state — in particular a second `close()` right after a
first one fires it exactly once again. If `socket.close()` throws, the
exception propagates to the caller and the callback does not fire. -/
theorem close_fires_onclose_once_per_call (st : TransportState) :
    (close st none).2.1 = [Ev.onClose] ∧
    (close st none).2.2 = Except.ok () ∧
    onCloseCount (close st none).2.1 = 1 ∧
    (close (close st none).1 none).2.1 = [Ev.onClose] ∧
    (close (close st none).1 none).2.2 = Except.ok () := by
  rcases st with ⟨sock, conn, ab⟩
  rcases sock with _ | isOpen
  · simp [close, onCloseCount]
  · rcases isOpen <;> simp [close, onCloseCount]

/-- C8 counterexample: after an unsolicited disconnect (the socket's
`close` event) the transport is disconnected yet still stores the stale
socket handle — the handler never clears `this.socket`. -/
theorem unsolicited_disconnect_retains_socket_handle :
    (handleSocketClose stOpenConnected).1.connected = false ∧
    (handleSocketClose stOpenConnected).1.socket ≠ none := by
  decide

/-- C8 amended: `close()` (with non-throwing teardown) discards the socket
handle, but the unsolicited-disconnect handler only clears the `connected`
flag and leaves the stored handle untouched. -/
theorem socket_handle_discarded_only_on_close (st : TransportState) :
    (close st none).1.socket = none ∧
    (handleSocketClose st).1.connected = false ∧
    (handleSocketClose st).1.socket = st.socket := by
  rcases st with ⟨sock, conn, ab⟩
  rcases sock with _ | isOpen
  · simp [close, handleSocketClose]
  · rcases isOpen <;> simp [close, handleSocketClose]

/-! ## Codec correctness -/

theorem sizeJ_pos (v : Json) : 1 ≤ sizeJ v := by
  cases v <;> simp [sizeJ]

theorem digitChar_isDigit (n : Nat) (h : n < 10) : (Nat.digitChar n).isDigit = true := by
  interval_cases n <;> decide

theorem digitChar_toNat (n : Nat) (h : n < 10) : (Nat.digitChar n).toNat - 48 = n := by
  interval_cases n <;> decide

theorem digitsOf_ne_nil (n : Nat) : digitsOf n ≠ [] := by
  rw [digitsOf]
  split <;> simp

theorem digitsOf_isDigit (n : Nat) : ∀ c ∈ digitsOf n, c.isDigit = true := by
  induction n using Nat.strong_induction_on with
  | _ n hrec =>
    rw [digitsOf]
    split
    next h =>
      intro c hc
      simp at hc
      subst hc
      exact digitChar_isDigit n h
    next h =>
      intro c hc
      simp at hc
      rcases hc with hc | hc
      · exact hrec (n / 10) (Nat.div_lt_self (by omega) (by omega)) c hc
      · subst hc
        exact digitChar_isDigit _ (Nat.mod_lt _ (by omega))

theorem digitsVal_snoc (xs : List Char) (c : Char) :
    digitsVal (xs ++ [c]) = digitsVal xs * 10 + (c.toNat - 48) := by
  induction xs with
  | nil => simp [digitsVal]
  | cons d ds ih =>
    rw [List.cons_append, digitsVal, digitsVal, ih]
    simp [List.length_append, pow_succ]
    ring

theorem digitsVal_digitsOf (n : Nat) : digitsVal (digitsOf n) = n := by
  induction n using Nat.strong_induction_on with
  | _ n hrec =>
    rw [digitsOf]
    split
    next h =>
      rw [show digitsVal [Nat.digitChar n] = (Nat.digitChar n).toNat - 48 from by
        rw [digitsVal, digitsVal]; simp]
      exact digitChar_toNat n h
    next h =>
      rw [digitsVal_snoc, hrec (n / 10) (Nat.div_lt_self (by omega) (by omega)),
        digitChar_toNat (n % 10) (Nat.mod_lt _ (by omega))]
      omega

theorem takeDigits_append (digs tl : List Char) (hds : ∀ c ∈ digs, c.isDigit = true)
    (hr : headNotDigit tl = true) : takeDigits (digs ++ tl) = (digs, tl) := by
  induction digs with
  | nil =>
    cases tl with
    | nil => rfl
    | cons c t =>
      simp [headNotDigit] at hr
      simp [takeDigits, hr]
  | cons d digs ih =>
    have hd : d.isDigit = true := hds d (by simp)
    simp [takeDigits, hd, ih (fun c hc => hds c (by simp [hc]))]

theorem parseStrChars_escape (s rest : List Char) :
    parseStrChars (escapeChars s ++ '"' :: rest) = some (s, rest) := by
  induction s with
  | nil =>
    rw [show escapeChars ([] : List Char) = [] from rfl, List.nil_append,
      parseStrChars.eq_def]
    simp
  | cons c cs ih =>
    by_cases h1 : c = '"'
    · subst h1
      simp only [escapeChars, escapeChar]
      norm_num
      rw [parseStrChars.eq_def]
      simp [unescapeChar, ih]
    · by_cases h2 : c = '\\'
      · subst h2
        simp only [escapeChars, escapeChar]
        norm_num
        rw [parseStrChars.eq_def]
        simp [unescapeChar, ih]
      · by_cases h3 : c = '\n'
        · subst h3
          simp only [escapeChars, escapeChar]
          norm_num
          rw [parseStrChars.eq_def]
          simp [unescapeChar, ih]
        · by_cases h4 : c = '\t'
          · subst h4
            simp only [escapeChars, escapeChar]
            norm_num
            rw [parseStrChars.eq_def]
            simp [unescapeChar, ih]
          · by_cases h5 : c = '\r'
            · subst h5
              simp only [escapeChars, escapeChar]
              norm_num
              rw [parseStrChars.eq_def]
              simp [unescapeChar, ih]
            · rw [show escapeChars (c :: cs) = escapeChar c ++ escapeChars cs from by
                simp [escapeChars]]
              rw [show escapeChar c = [c] from by simp [escapeChar, h1, h2, h3, h4, h5]]
              rw [List.cons_append, List.nil_append, parseStrChars.eq_def]
              simp [h1, h2, ih]

theorem digit_not_special (c : Char) (h : c.isDigit = true) :
    c ≠ 'n' ∧ c ≠ '[' ∧ c ≠ 't' ∧ c ≠ '{' ∧ c ≠ 'f' ∧ c ≠ '"' ∧ c ≠ '-' ∧ c ≠ ']' ∧ c ≠ '}' := by
  repeat' constructor
  all_goals (intro he; subst he; exact absurd h (by decide))

theorem digitsOf_head (n : Nat) : ∃ d ds, digitsOf n = d :: ds ∧ d.isDigit = true := by
  cases h : digitsOf n with
  | nil => exact absurd h (digitsOf_ne_nil n)
  | cons d ds =>
    refine ⟨d, ds, rfl, digitsOf_isDigit n d ?_⟩
    rw [h]
    simp

theorem encodeJson_head_ne_rbracket (v : Json) :
    ∃ c cs, encodeJson v = c :: cs ∧ ¬ c = ']' := by
  cases v with
  | null => exact ⟨'n', ['u', 'l', 'l'], by simp [encodeJson, litNull], by decide⟩
  | bool b =>
    cases b with
    | false => exact ⟨'f', ['a', 'l', 's', 'e'], by simp [encodeJson, litFalse], by decide⟩
    | true => exact ⟨'t', ['r', 'u', 'e'], by simp [encodeJson, litTrue], by decide⟩
  | num n =>
    by_cases h : n < 0
    · exact ⟨'-', digitsOf n.natAbs, by simp [encodeJson, encodeInt, h], by decide⟩
    · obtain ⟨d, ds, hd, hdig⟩ := digitsOf_head n.toNat
      exact ⟨d, ds, by simp [encodeJson, encodeInt, h, hd],
        (digit_not_special d hdig).2.2.2.2.2.2.2.1⟩
  | str s =>
    exact ⟨'"', escapeChars s ++ ['"'], by simp [encodeJson, encodeStringJs], by decide⟩
  | arr xs =>
    cases xs with
    | nil => exact ⟨'[', [']'], by simp [encodeJson], by decide⟩
    | cons x xs =>
      exact ⟨'[', (encodeJson x ++ encodeElemsTail xs) ++ [']'],
        by simp [encodeJson], by decide⟩
  | obj ms =>
    rcases ms with _ | ⟨⟨k, v⟩, ms⟩
    · exact ⟨'{', ['}'], by simp [encodeJson], by decide⟩
    · exact ⟨'{', (encodeStringJs k ++ ':' :: encodeJson v ++ encodeMembersTail ms) ++ ['}'],
        by simp [encodeJson], by decide⟩

theorem headNotDigit_elemsTail (xs : List Json) (rest : List Char) :
    headNotDigit (encodeElemsTail xs ++ ']' :: rest) = true := by
  cases xs with
  | nil =>
    rw [show encodeElemsTail [] = [] from by simp [encodeElemsTail], List.nil_append]
    simp only [headNotDigit]
    decide
  | cons y ys =>
    rw [show encodeElemsTail (y :: ys) = ',' :: (encodeJson y ++ encodeElemsTail ys) from by
      simp [encodeElemsTail], List.cons_append]
    simp only [headNotDigit]
    decide

theorem headNotDigit_membersTail (ms : List (List Char × Json)) (rest : List Char) :
    headNotDigit (encodeMembersTail ms ++ '}' :: rest) = true := by
  rcases ms with _ | ⟨⟨k, v⟩, ms⟩
  · rw [show encodeMembersTail [] = [] from by simp [encodeMembersTail], List.nil_append]
    simp only [headNotDigit]
    decide
  · rw [show encodeMembersTail ((k, v) :: ms) =
        ',' :: (encodeStringJs k ++ ':' :: encodeJson v ++ encodeMembersTail ms) from by
      simp [encodeMembersTail], List.cons_append]
    simp only [headNotDigit]
    decide

theorem parseValue_encode_null (f : Nat) (rest : List Char) :
    parseValue (f + 1) (encodeJson Json.null ++ rest) = some (Json.null, rest) := by
  simp [encodeJson, litNull, parseValue]

theorem parseValue_encode_bool (f : Nat) (b : Bool) (rest : List Char) :
    parseValue (f + 1) (encodeJson (Json.bool b) ++ rest) = some (Json.bool b, rest) := by
  cases b <;> simp [encodeJson, litTrue, litFalse, parseValue]

theorem parseValue_encode_num (f : Nat) (n : Int) (rest : List Char)
    (hr : headNotDigit rest = true) :
    parseValue (f + 1) (encodeJson (Json.num n) ++ rest) = some (Json.num n, rest) := by
  by_cases h : n < 0
  · obtain ⟨d, ds, hd, hdig⟩ := digitsOf_head n.natAbs
    have htake' : takeDigits (d :: (ds ++ rest)) = (d :: ds, rest) := by
      rw [← List.cons_append, ← hd]
      exact takeDigits_append _ _ (digitsOf_isDigit _) hr
    have hval' : digitsVal (d :: ds) = n.natAbs := by
      rw [← hd]
      exact digitsVal_digitsOf _
    have hn : (-(digitsVal (d :: ds) : Int)) = n := by
      rw [hval']
      omega
    rw [show encodeJson (Json.num n) = '-' :: digitsOf n.natAbs from by
      simp [encodeJson, encodeInt, h]]
    rw [List.cons_append, hd, List.cons_append]
    simp [parseValue, htake', hn]
  · obtain ⟨d, ds, hd, hdig⟩ := digitsOf_head n.toNat
    have hspec := digit_not_special d hdig
    have htake' : takeDigits (d :: (ds ++ rest)) = (d :: ds, rest) := by
      rw [← List.cons_append, ← hd]
      exact takeDigits_append _ _ (digitsOf_isDigit _) hr
    have hval' : digitsVal (d :: ds) = n.toNat := by
      rw [← hd]
      exact digitsVal_digitsOf _
    rw [show encodeJson (Json.num n) = digitsOf n.toNat from by
      simp [encodeJson, encodeInt, h]]
    rw [hd, List.cons_append]
    simp [parseValue, hspec.1, hspec.2.1, hspec.2.2.1, hspec.2.2.2.1, hspec.2.2.2.2.1,
      hspec.2.2.2.2.2.1, hspec.2.2.2.2.2.2.1, hdig, htake', hval']
    omega

theorem parseValue_encode_str (f : Nat) (s rest : List Char) :
    parseValue (f + 1) (encodeJson (Json.str s) ++ rest) = some (Json.str s, rest) := by
  rw [show encodeJson (Json.str s) = '"' :: (escapeChars s ++ ['"']) from by
    simp [encodeJson, encodeStringJs]]
  rw [List.cons_append, List.append_assoc, List.singleton_append]
  simp [parseValue, parseStrChars_escape]

theorem parseValue_encode_arr_nil (f : Nat) (rest : List Char) :
    parseValue (f + 1) (encodeJson (Json.arr []) ++ rest) = some (Json.arr [], rest) := by
  simp [encodeJson, parseValue]

theorem parseValue_encode_arr_cons (f : Nat) (x : Json) (xs : List Json) (rest : List Char)
    (hE : parseElems f (encodeJson x ++ (encodeElemsTail xs ++ ']' :: rest)) =
      some (x :: xs, rest)) :
    parseValue (f + 1) (encodeJson (Json.arr (x :: xs)) ++ rest) =
      some (Json.arr (x :: xs), rest) := by
  obtain ⟨c, cs, hc, hne⟩ := encodeJson_head_ne_rbracket x
  rw [hc, List.cons_append] at hE
  rw [show encodeJson (Json.arr (x :: xs)) =
      '[' :: ((encodeJson x ++ encodeElemsTail xs) ++ [']']) from by simp [encodeJson]]
  rw [List.cons_append, List.append_assoc, List.append_assoc, List.singleton_append, hc,
    List.cons_append]
  simp [parseValue, hne, hE]

theorem parseValue_encode_obj_nil (f : Nat) (rest : List Char) :
    parseValue (f + 1) (encodeJson (Json.obj []) ++ rest) = some (Json.obj [], rest) := by
  simp [encodeJson, parseValue]

theorem parseValue_encode_obj_cons (f : Nat) (k : List Char) (v : Json)
    (ms : List (List Char × Json)) (rest : List Char)
    (hM : parseMembers f
        ('"' :: (escapeChars k ++ '"' :: (':' ::
          (encodeJson v ++ (encodeMembersTail ms ++ '}' :: rest))))) =
      some ((k, v) :: ms, rest)) :
    parseValue (f + 1) (encodeJson (Json.obj ((k, v) :: ms)) ++ rest) =
      some (Json.obj ((k, v) :: ms), rest) := by
  rw [show encodeJson (Json.obj ((k, v) :: ms)) =
      '{' :: ((encodeStringJs k ++ ':' :: encodeJson v ++ encodeMembersTail ms) ++ ['}']) from by
    simp [encodeJson]]
  rw [List.cons_append]
  rw [show ((encodeStringJs k ++ ':' :: encodeJson v ++ encodeMembersTail ms) ++ ['}']) ++ rest =
      '"' :: (escapeChars k ++ '"' :: (':' ::
        (encodeJson v ++ (encodeMembersTail ms ++ '}' :: rest)))) from by
    simp [encodeStringJs]]
  simp [parseValue, hM]

theorem parseElems_encode_step (f : Nat) (x : Json) (xs : List Json) (rest : List Char)
    (hV : parseValue f (encodeJson x ++ (encodeElemsTail xs ++ ']' :: rest)) =
      some (x, encodeElemsTail xs ++ ']' :: rest))
    (hTail : xs = [] ∨ ∃ y ys, xs = y :: ys ∧
      parseElems f (encodeJson y ++ (encodeElemsTail ys ++ ']' :: rest)) =
        some (y :: ys, rest)) :
    parseElems (f + 1) ((encodeJson x ++ encodeElemsTail xs) ++ ']' :: rest) =
      some (x :: xs, rest) := by
  rw [List.append_assoc]
  simp only [parseElems]
  rw [hV]
  rcases hTail with h | ⟨y, ys, hxs, hE⟩
  · subst h
    rw [show encodeElemsTail [] = [] from by simp [encodeElemsTail], List.nil_append]
    simp
  · subst hxs
    rw [show encodeElemsTail (y :: ys) = ',' :: (encodeJson y ++ encodeElemsTail ys) from by
      simp [encodeElemsTail]]
    simp [hE]

theorem parseMembers_encode_step (f : Nat) (k : List Char) (v : Json)
    (ms : List (List Char × Json)) (rest : List Char)
    (hV : parseValue f (encodeJson v ++ (encodeMembersTail ms ++ '}' :: rest)) =
      some (v, encodeMembersTail ms ++ '}' :: rest))
    (hTail : ms = [] ∨ ∃ k2 v2 ms2, ms = (k2, v2) :: ms2 ∧
      parseMembers f ('"' :: (escapeChars k2 ++ '"' :: (':' ::
          (encodeJson v2 ++ (encodeMembersTail ms2 ++ '}' :: rest))))) =
        some ((k2, v2) :: ms2, rest)) :
    parseMembers (f + 1) ('"' :: (escapeChars k ++ '"' :: (':' ::
        (encodeJson v ++ (encodeMembersTail ms ++ '}' :: rest))))) =
      some ((k, v) :: ms, rest) := by
  simp only [parseMembers]
  rw [parseStrChars_escape]
  rcases hTail with h | ⟨k2, v2, ms2, hms, hM⟩
  · subst h
    rw [show encodeMembersTail [] = [] from by simp [encodeMembersTail],
      List.nil_append] at hV ⊢
    simp [hV]
  · subst hms
    rw [show encodeMembersTail ((k2, v2) :: ms2) ++ '}' :: rest =
        ',' :: ('"' :: (escapeChars k2 ++ '"' :: (':' ::
          (encodeJson v2 ++ (encodeMembersTail ms2 ++ '}' :: rest))))) from by
      simp [encodeMembersTail, encodeStringJs]] at hV ⊢
    simp [hV, hM]

theorem parse_encode_all : ∀ fuel : Nat,
    (∀ v rest, sizeJ v ≤ fuel → headNotDigit rest = true →
      parseValue fuel (encodeJson v ++ rest) = some (v, rest)) ∧
    (∀ x xs rest, sizeL (x :: xs) ≤ fuel → headNotDigit rest = true →
      parseElems fuel ((encodeJson x ++ encodeElemsTail xs) ++ ']' :: rest) =
        some (x :: xs, rest)) ∧
    (∀ k v ms rest, sizeM ((k, v) :: ms) ≤ fuel → headNotDigit rest = true →
      parseMembers fuel ('"' :: (escapeChars k ++ '"' :: (':' ::
          (encodeJson v ++ (encodeMembersTail ms ++ '}' :: rest))))) =
        some ((k, v) :: ms, rest)) := by
  intro fuel
  induction fuel with
  | zero =>
    refine ⟨fun v rest hs _ => absurd hs ?_, fun x xs rest hs _ => absurd hs ?_,
      fun k v ms rest hs _ => absurd hs ?_⟩
    · have := sizeJ_pos v
      omega
    · intro hcon
      rw [show sizeL (x :: xs) = 1 + sizeJ x + sizeL xs from by simp [sizeL]] at hcon
      omega
    · intro hcon
      rw [show sizeM ((k, v) :: ms) = 1 + sizeJ v + sizeM ms from by simp [sizeM]] at hcon
      omega
  | succ f ih =>
    obtain ⟨ihV, ihE, ihM⟩ := ih
    refine ⟨?_, ?_, ?_⟩
    · intro v rest hs hr
      cases v with
      | null => exact parseValue_encode_null f rest
      | bool b => exact parseValue_encode_bool f b rest
      | num n => exact parseValue_encode_num f n rest hr
      | str s => exact parseValue_encode_str f s rest
      | arr xs =>
        cases xs with
        | nil => exact parseValue_encode_arr_nil f rest
        | cons x xs =>
          have hsx : sizeL (x :: xs) ≤ f := by
            rw [show sizeJ (Json.arr (x :: xs)) = 1 + sizeL (x :: xs) from by
              simp [sizeJ]] at hs
            omega
          have hE := ihE x xs rest hsx hr
          rw [List.append_assoc] at hE
          exact parseValue_encode_arr_cons f x xs rest hE
      | obj ms =>
        rcases ms with _ | ⟨⟨k, v⟩, ms⟩
        · exact parseValue_encode_obj_nil f rest
        · have hsm : sizeM ((k, v) :: ms) ≤ f := by
            rw [show sizeJ (Json.obj ((k, v) :: ms)) = 1 + sizeM ((k, v) :: ms) from by
              simp [sizeJ]] at hs
            omega
          exact parseValue_encode_obj_cons f k v ms rest (ihM k v ms rest hsm hr)
    · intro x xs rest hs hr
      rw [show sizeL (x :: xs) = 1 + sizeJ x + sizeL xs from by simp [sizeL]] at hs
      have hpx := sizeJ_pos x
      have hV := ihV x (encodeElemsTail xs ++ ']' :: rest) (by omega)
        (headNotDigit_elemsTail xs rest)
      apply parseElems_encode_step f x xs rest hV
      cases xs with
      | nil => exact Or.inl rfl
      | cons y ys =>
        have hE := ihE y ys rest (by
          rw [show sizeL (y :: ys) = 1 + sizeJ y + sizeL ys from by simp [sizeL]] at hs ⊢
          omega) hr
        rw [List.append_assoc] at hE
        exact Or.inr ⟨y, ys, rfl, hE⟩
    · intro k v ms rest hs hr
      rw [show sizeM ((k, v) :: ms) = 1 + sizeJ v + sizeM ms from by simp [sizeM]] at hs
      have hpv := sizeJ_pos v
      have hV := ihV v (encodeMembersTail ms ++ '}' :: rest) (by omega)
        (headNotDigit_membersTail ms rest)
      apply parseMembers_encode_step f k v ms rest hV
      rcases ms with _ | ⟨⟨k2, v2⟩, ms2⟩
      · exact Or.inl rfl
      · refine Or.inr ⟨k2, v2, ms2, rfl, ihM k2 v2 ms2 rest ?_ hr⟩
        rw [show sizeM ((k2, v2) :: ms2) = 1 + sizeJ v2 + sizeM ms2 from by
          simp [sizeM]] at hs ⊢
        omega

theorem size_le_encode_fuel : ∀ fuel : Nat,
    (∀ v, sizeJ v ≤ fuel → sizeJ v ≤ (encodeJson v).length) ∧
    (∀ xs, sizeL xs ≤ fuel → sizeL xs ≤ (encodeElemsTail xs).length) ∧
    (∀ ms, sizeM ms ≤ fuel → sizeM ms ≤ (encodeMembersTail ms).length) := by
  intro fuel
  induction fuel with
  | zero =>
    refine ⟨fun v hv => absurd hv (by have := sizeJ_pos v; omega), ?_, ?_⟩
    · intro xs hxs
      cases xs with
      | nil =>
        rw [show sizeL [] = 0 from by simp [sizeL]]
        omega
      | cons x xs =>
        rw [show sizeL (x :: xs) = 1 + sizeJ x + sizeL xs from by simp [sizeL]] at hxs
        omega
    · intro ms hms
      rcases ms with _ | ⟨⟨k, v⟩, ms⟩
      · rw [show sizeM [] = 0 from by simp [sizeM]]
        omega
      · rw [show sizeM ((k, v) :: ms) = 1 + sizeJ v + sizeM ms from by simp [sizeM]] at hms
        omega
  | succ f ih =>
    obtain ⟨ihV, ihE, ihM⟩ := ih
    refine ⟨?_, ?_, ?_⟩
    · intro v hv
      cases v with
      | null => simp [sizeJ, encodeJson, litNull]
      | bool b => cases b <;> simp [sizeJ, encodeJson, litTrue, litFalse]
      | num n =>
        rw [show sizeJ (Json.num n) = 1 from by simp [sizeJ]]
        rw [show encodeJson (Json.num n) = encodeInt n from by simp [encodeJson]]
        by_cases h : n < 0
        · simp [encodeInt, h]
        · obtain ⟨d, ds, hd, _⟩ := digitsOf_head n.toNat
          simp [encodeInt, h, hd]
      | str s =>
        rw [show sizeJ (Json.str s) = 1 from by simp [sizeJ]]
        simp [encodeJson, encodeStringJs]
      | arr xs =>
        cases xs with
        | nil => simp [sizeJ, sizeL, encodeJson]
        | cons x xs =>
          rw [show sizeJ (Json.arr (x :: xs)) = 1 + sizeL (x :: xs) from by simp [sizeJ],
            show sizeL (x :: xs) = 1 + sizeJ x + sizeL xs from by simp [sizeL]] at hv ⊢
          have e1 := ihV x (by omega)
          have e2 := ihE xs (by omega)
          rw [show encodeJson (Json.arr (x :: xs)) =
            '[' :: ((encodeJson x ++ encodeElemsTail xs) ++ [']']) from by simp [encodeJson]]
          simp [List.length_append]
          omega
      | obj ms =>
        rcases ms with _ | ⟨⟨k, v⟩, ms⟩
        · simp [sizeJ, sizeM, encodeJson]
        · rw [show sizeJ (Json.obj ((k, v) :: ms)) = 1 + sizeM ((k, v) :: ms) from by
            simp [sizeJ],
            show sizeM ((k, v) :: ms) = 1 + sizeJ v + sizeM ms from by simp [sizeM]] at hv ⊢
          have e1 := ihV v (by omega)
          have e2 := ihM ms (by omega)
          rw [show encodeJson (Json.obj ((k, v) :: ms)) =
            '{' :: ((encodeStringJs k ++ ':' :: encodeJson v ++ encodeMembersTail ms) ++ ['}'])
            from by simp [encodeJson]]
          simp [List.length_append, encodeStringJs]
          omega
    · intro xs hxs
      cases xs with
      | nil =>
        rw [show sizeL [] = 0 from by simp [sizeL]]
        omega
      | cons x xs =>
        rw [show sizeL (x :: xs) = 1 + sizeJ x + sizeL xs from by simp [sizeL]] at hxs ⊢
        have e1 := ihV x (by omega)
        have e2 := ihE xs (by omega)
        rw [show encodeElemsTail (x :: xs) = ',' :: (encodeJson x ++ encodeElemsTail xs) from by
          simp [encodeElemsTail]]
        simp [List.length_append]
        omega
    · intro ms hms
      rcases ms with _ | ⟨⟨k, v⟩, ms⟩
      · rw [show sizeM [] = 0 from by simp [sizeM]]
        omega
      · rw [show sizeM ((k, v) :: ms) = 1 + sizeJ v + sizeM ms from by simp [sizeM]] at hms ⊢
        have e1 := ihV v (by omega)
        have e2 := ihM ms (by omega)
        rw [show encodeMembersTail ((k, v) :: ms) =
          ',' :: (encodeStringJs k ++ ':' :: encodeJson v ++ encodeMembersTail ms) from by
          simp [encodeMembersTail]]
        simp [List.length_append, encodeStringJs]
        omega

theorem sizeJ_le_encode_length (v : Json) : sizeJ v ≤ (encodeJson v).length :=
  (size_le_encode_fuel (sizeJ v)).1 v le_rfl

theorem decodeJson_encodeJson (v : Json) : decodeJson (encodeJson v) = some v := by
  have h := (parse_encode_all ((encodeJson v).length + 1)).1 v []
    (by have := sizeJ_le_encode_length v; omega) rfl
  rw [List.append_nil] at h
  simp [decodeJson, h]

theorem processInbound_append (valid cbThrows : Json → Bool) (l1 l2 : List WsData) :
    processInbound valid cbThrows (l1 ++ l2) =
      processInbound valid cbThrows l1 ++ processInbound valid cbThrows l2 := by
  induction l1 with
  | nil => simp [processInbound]
  | cons d ds ih => simp [processInbound, ih]

theorem processInbound_valid_frames (valid cbThrows : Json → Bool) (msgs : List Json)
    (h : ∀ m ∈ msgs, valid m = true ∧ cbThrows m = false) :
    processInbound valid cbThrows (msgs.map (fun m => WsData.str (encodeFrame m))) =
      msgs.map Ev.onMessage := by
  revert h
  induction msgs with
  | nil =>
    intro h
    simp [processInbound]
  | cons m ms ih =>
    intro h
    have h1 := (h m (by simp)).1
    have h2 := (h m (by simp)).2
    have ih2 := ih (fun x hx => h x (by simp [hx]))
    simp [processInbound, handleWsMessage, onmessageTry, toDataString, encodeFrame,
      decodeJson_encodeJson, schemaParse, h1, h2]
    simpa [encodeFrame] using ih2

/-- C9: encode-then-decode of a schema-valid protocol message returns the
original message (for any schema acceptance predicate), and the
constructor normalizes an HTTP-scheme URL such as `http://localhost:8080`
to the WebSocket scheme at the same host and port. -/
theorem codec_roundtrip_and_url_normalization (valid : Json → Bool) (m : Json)
    (h : valid m = true) :
    decodeFrame valid (encodeFrame m) = some m ∧
    normalizeUrl "http://localhost:8080" = "ws://localhost:8080" := by
  constructor
  · simp [decodeFrame, encodeFrame, decodeJson_encodeJson, schemaParse, h]
  · decide

/-- C9 witness: the spec's ping message round-trips under the
accept-everything schema, and the example URL is normalized. -/
theorem codec_roundtrip_and_url_normalization_witness :
    decodeFrame (fun _ => true)
      (encodeFrame (Json.obj [(['m', 'e', 't', 'h', 'o', 'd'], Json.str ['p', 'i', 'n', 'g'])])) =
      some (Json.obj [(['m', 'e', 't', 'h', 'o', 'd'], Json.str ['p', 'i', 'n', 'g'])]) ∧
    normalizeUrl "http://localhost:8080" = "ws://localhost:8080" :=
  codec_roundtrip_and_url_normalization (fun _ => true)
    (Json.obj [(['m', 'e', 't', 'h', 'o', 'd'], Json.str ['p', 'i', 'n', 'g'])]) rfl

/-- C7: an inbound frame that fails to decode (unsupported shape, JSON
parse failure, or schema rejection) produces exactly one error-callback
invocation with the wrapped parse error and no message-callback
invocation; processing of every other event is unaffected, and runs of
valid frames are still delivered to the message callback in arrival
order. -/
theorem bad_frame_reported_once_processing_unaffected
    (valid cbThrows : Json → Bool) (d : WsData)
    (hd : toDataString d = none ∨ ∃ s, toDataString d = some s ∧
      (decodeJson s = none ∨ ∃ j, decodeJson s = some j ∧ valid j = false))
    (pre post : List WsData) (msgs : List Json)
    (hmsgs : ∀ m ∈ msgs, valid m = true ∧ cbThrows m = false) :
    (∃ cause, handleWsMessage valid cbThrows d =
      [Ev.onError (TransportError.parseFailed cause)]) ∧
    onMessageCount (handleWsMessage valid cbThrows d) = 0 ∧
    onErrorCount (handleWsMessage valid cbThrows d) = 1 ∧
    processInbound valid cbThrows (pre ++ d :: post) =
      processInbound valid cbThrows pre ++ handleWsMessage valid cbThrows d ++
        processInbound valid cbThrows post ∧
    processInbound valid cbThrows (msgs.map (fun m => WsData.str (encodeFrame m))) =
      msgs.map Ev.onMessage := by
  have hh : ∃ cause, handleWsMessage valid cbThrows d =
      [Ev.onError (TransportError.parseFailed cause)] := by
    rcases hd with h | ⟨s, hs, h2⟩
    · exact ⟨ParseCause.unsupportedData, by simp [handleWsMessage, onmessageTry, h]⟩
    · rcases h2 with h2 | ⟨j, hj, hv⟩
      · exact ⟨ParseCause.jsonError, by simp [handleWsMessage, onmessageTry, hs, h2]⟩
      · exact ⟨ParseCause.schemaError, by
          simp [handleWsMessage, onmessageTry, hs, hj, schemaParse, hv]⟩
  obtain ⟨cause, hc⟩ := hh
  refine ⟨⟨cause, hc⟩, ?_, ?_, ?_, processInbound_valid_frames valid cbThrows msgs hmsgs⟩
  · simp [hc, onMessageCount]
  · simp [hc, onErrorCount]
  · rw [processInbound_append]
    simp [processInbound]

/-- C7 witness: the spec's `"not json"` frame is reported via the error
callback, does not fire the message callback, and a later valid frame is
still delivered. -/
theorem bad_frame_reported_once_processing_unaffected_witness :
    (∃ cause, handleWsMessage (fun _ => true) (fun _ => false)
        (WsData.str ['n', 'o', 't', ' ', 'j', 's', 'o', 'n']) =
      [Ev.onError (TransportError.parseFailed cause)]) ∧
    onMessageCount (handleWsMessage (fun _ => true) (fun _ => false)
      (WsData.str ['n', 'o', 't', ' ', 'j', 's', 'o', 'n'])) = 0 ∧
    onErrorCount (handleWsMessage (fun _ => true) (fun _ => false)
      (WsData.str ['n', 'o', 't', ' ', 'j', 's', 'o', 'n'])) = 1 ∧
    processInbound (fun _ => true) (fun _ => false)
        ([] ++ WsData.str ['n', 'o', 't', ' ', 'j', 's', 'o', 'n'] ::
          [WsData.str ['{', '}']]) =
      processInbound (fun _ => true) (fun _ => false) [] ++
        handleWsMessage (fun _ => true) (fun _ => false)
          (WsData.str ['n', 'o', 't', ' ', 'j', 's', 'o', 'n']) ++
        processInbound (fun _ => true) (fun _ => false) [WsData.str ['{', '}']] ∧
    processInbound (fun _ => true) (fun _ => false)
        ([Json.null].map (fun m => WsData.str (encodeFrame m))) =
      [Json.null].map Ev.onMessage :=
  bad_frame_reported_once_processing_unaffected (fun _ => true) (fun _ => false)
    (WsData.str ['n', 'o', 't', ' ', 'j', 's', 'o', 'n'])
    (Or.inr ⟨['n', 'o', 't', ' ', 'j', 's', 'o', 'n'], rfl, Or.inl rfl⟩)
    [] [WsData.str ['{', '}']] [Json.null]
    (fun _ _ => ⟨rfl, rfl⟩)

/-- C10: when an inbound frame decodes and validates but the consumer's
message callback itself throws, the handler catches the exception,
reports it via the error callback wrapped as a failed-to-parse error, and
returns normally — later inbound events are processed unaffected. -/
theorem message_callback_throw_caught_and_reported
    (valid cbThrows : Json → Bool) (d : WsData) (s : List Char) (j : Json)
    (hs : toDataString d = some s) (hj : decodeJson s = some j)
    (hv : valid j = true) (hcb : cbThrows j = true) (post : List WsData) :
    handleWsMessage valid cbThrows d =
      [Ev.onMessage j, Ev.onError (TransportError.parseFailed ParseCause.callbackError)] ∧
    processInbound valid cbThrows (d :: post) =
      handleWsMessage valid cbThrows d ++ processInbound valid cbThrows post := by
  constructor
  · simp [handleWsMessage, onmessageTry, hs, hj, schemaParse, hv, hcb]
  · simp [processInbound]

/-- C10 witness: an always-throwing message callback on the frame
consisting of an empty JSON object. -/
theorem message_callback_throw_caught_and_reported_witness :
    handleWsMessage (fun _ => true) (fun _ => true) (WsData.str ['{', '}']) =
      [Ev.onMessage (Json.obj []),
        Ev.onError (TransportError.parseFailed ParseCause.callbackError)] ∧
    processInbound (fun _ => true) (fun _ => true) (WsData.str ['{', '}'] :: []) =
      handleWsMessage (fun _ => true) (fun _ => true) (WsData.str ['{', '}']) ++
        processInbound (fun _ => true) (fun _ => true) [] :=
  message_callback_throw_caught_and_reported (fun _ => true) (fun _ => true)
    (WsData.str ['{', '}']) ['{', '}'] (Json.obj []) rfl rfl rfl rfl []

end MCPWS

